import Mathlib

/-!
Verification of the budgeting engine of the gastos application.

Two allocation policies appear in the source:
- RSR (retroactive symmetric redistribution): the stats computation of the
  RSR variants (App.tsx first variant, unnamed parts 006 and 008).
- SCR (sequential carry-forward rebalancing): rebalancedRecords of the SCR
  variants (App.tsx second variant, unnamed part 007).

Currency amounts are JavaScript numbers in the source; they are modelled as
rationals, so every division the code performs is exact.  A parseFloat that
yields NaN, and a null or empty prompt result, are modelled as Option.none.
-/

/-- Expense entry of the RSR variants: id, amount, description. -/
structure DailyExpense where
  id : String
  amount : ℚ
  description : String
deriving DecidableEq

/-- Day record of the RSR variants: day number and list of expenses. -/
structure DayData where
  day : ℕ
  expenses : List DailyExpense
deriving DecidableEq

instance : Inhabited DayData := ⟨⟨0, []⟩⟩

/-- One row of the stats result of the RSR variants:
day, assigned, spent, remaining. -/
structure StatRow where
  day : ℕ
  assigned : ℚ
  spent : ℚ
  remaining : ℚ
deriving DecidableEq

instance : Inhabited StatRow := ⟨⟨0, 0, 0, 0⟩⟩

/-- d.expenses.reduce((sum, e) => sum + e.amount, 0) -/
def spentOfDay (d : DayData) : ℚ :=
  d.expenses.foldl (fun sum e => sum + e.amount) 0

/-- JavaScript (x || y) on integers: y when x is 0, else x. -/
def jsOrInt (x y : ℤ) : ℤ := if x = 0 then y else x

/-- The denominator (daysInMonth - 1 || 1) of the RSR penalty. -/
def rsrDenom (daysInMonth : ℕ) : ℤ := jsOrInt ((daysInMonth : ℤ) - 1) 1

/-- penalty = othersExcess / (daysInMonth - 1 || 1), with
othersExcess = totalExcess - myExcess. -/
def rsrPenalty (daysInMonth : ℕ) (totalExcess myExcess : ℚ) : ℚ :=
  (totalExcess - myExcess) / ((rsrDenom daysInMonth : ℤ) : ℚ)

/-- The stats useMemo of the RSR variants: per-day excesses over the target,
their total, and for each day the assigned allowance
dailyTarget - othersExcess / (daysInMonth - 1 || 1). -/
def stats (daysInMonth : ℕ) (dailyTarget : ℚ) (days : List DayData) :
    List StatRow :=
  let dailyExcesses :=
    days.map (fun d => (d.day, max 0 (spentOfDay d - dailyTarget)))
  let totalExcess := dailyExcesses.foldl (fun sum d => sum + d.2) 0
  days.map fun d =>
    let spent := spentOfDay d
    let myExcess := max 0 (spent - dailyTarget)
    let penalty := rsrPenalty daysInMonth totalExcess myExcess
    let assigned := dailyTarget - penalty
    { day := d.day, assigned := assigned, spent := spent,
      remaining := assigned - spent }

/-- addExpense of the RSR variant (App.tsx first variant, lines 108-118).
desc = none models a null or empty description prompt (falsy), amount = none
models a missing amount string or a parseFloat result that is NaN; in either
case the function returns without mutating state.  A parsed amount is any
rational, negative values included, appended to every day with the given
number. -/
def addExpense (days : List DayData) (dayNum : ℕ) (desc : Option String)
    (amount : Option ℚ) (newId : String) : List DayData :=
  match desc with
  | none => days
  | some d =>
    match amount with
    | none => days
    | some a =>
      days.map fun r =>
        if r.day = dayNum then
          { r with expenses := r.expenses ++ [⟨newId, a, d⟩] }
        else r

/-- Expense entry of the SCR variants: id, amount, label. -/
structure ExpenseItem where
  id : String
  amount : ℚ
  label : String
deriving DecidableEq

/-- Day record of the SCR variants (types.ts DailyRecord).  The date field is
opaque to the engine and is modelled as an integer timestamp. -/
structure DailyRecord where
  day : ℕ
  expenses : List ExpenseItem
  date : ℤ
  isLocked : Bool
  adjustedBudget : ℚ
deriving DecidableEq

instance : Inhabited DailyRecord := ⟨⟨0, [], 0, false, 0⟩⟩

/-- record.expenses.reduce((s, e) => s + e.amount, 0) -/
def spentOf (r : DailyRecord) : ℚ :=
  r.expenses.foldl (fun s e => s + e.amount) 0

/-- The body of the rebalancedRecords pass: map over the records threading
accumulatedSpent and processedDaysCount, which advance only at locked days.
remainingDays = n - processed is natural subtraction; the source value can
never be negative during the pass, and the guard remainingDays > 0 sends every
non-positive value to the 0 branch exactly as the JavaScript comparison does. -/
def rebalanceAux (totalMonthlyBudget : ℚ) (n : ℕ) :
    ℚ → ℕ → List DailyRecord → List DailyRecord
  | _, _, [] => []
  | accumulatedSpent, processedDaysCount, r :: rs =>
    let remainingDays := n - processedDaysCount
    let remainingBudget := totalMonthlyBudget - accumulatedSpent
    let currentTarget : ℚ :=
      if 0 < remainingDays then remainingBudget / (remainingDays : ℚ) else 0
    let dayTotal := spentOf r
    { r with adjustedBudget := currentTarget } ::
      (if r.isLocked then
        rebalanceAux totalMonthlyBudget n (accumulatedSpent + dayTotal)
          (processedDaysCount + 1) rs
      else
        rebalanceAux totalMonthlyBudget n accumulatedSpent
          processedDaysCount rs)

/-- rebalancedRecords of the SCR variants: totalMonthlyBudget =
initialDailyBudget * records.length, then the sequential pass starting from
accumulatedSpent = 0, processedDaysCount = 0. -/
def rebalancedRecords (initialDailyBudget : ℚ) (records : List DailyRecord) :
    List DailyRecord :=
  if records.length = 0 then []
  else
    rebalanceAux (initialDailyBudget * records.length) records.length 0 0
      records

/-- The edited field of handleExpenseChange: an amount edit carries the
parseFloat result (none for NaN) and the source applies (parseFloat v || 0);
a label edit carries the new label. -/
inductive EditField where
  | amount (v : Option ℚ)
  | labelEdit (v : String)
deriving DecidableEq

/-- handleExpenseChange of the SCR variants: on every record with the given
day, replace the matching expense field and set isLocked to true. -/
def handleExpenseChange (records : List DailyRecord) (day : ℕ)
    (expenseId : String) (f : EditField) : List DailyRecord :=
  records.map fun r =>
    if r.day = day then
      let newExpenses := r.expenses.map fun e =>
        if e.id = expenseId then
          match f with
          | .amount v => { e with amount := v.getD 0 }
          | .labelEdit v => { e with label := v }
        else e
      { r with expenses := newExpenses, isLocked := true }
    else r

/-- addNewExpenseField of the SCR variants: append a fresh expense to every
record with the given day and set isLocked to true.  No validation is done on
the amount. -/
def addNewExpenseField (records : List DailyRecord) (day : ℕ)
    (initialAmount : ℚ) (initialLabel : String) (newId : String) :
    List DailyRecord :=
  records.map fun r =>
    if r.day = day then
      { r with
        expenses := r.expenses ++ [⟨newId, initialAmount, initialLabel⟩]
        isLocked := true }
    else r

/-- removeExpense of the SCR variants: filter out the expense with the given
id on every record with the given day and set isLocked to
(filtered.length > 0). -/
def removeExpense (records : List DailyRecord) (day : ℕ)
    (expenseId : String) : List DailyRecord :=
  records.map fun r =>
    if r.day = day then
      let filtered := r.expenses.filter (fun e => e.id != expenseId)
      { r with expenses := filtered, isLocked := decide (0 < filtered.length) }
    else r

/-- MonthlySummary of types.ts. -/
structure MonthlySummary where
  totalBudget : ℚ
  totalSpent : ℚ
  totalBalance : ℚ
  projectedSpending : ℚ
  isOverBudget : Bool
  currentDailyAllowance : ℚ
deriving DecidableEq

/-- The summary useMemo of the SCR variants, as a function of the record list
it receives (the source passes rebalancedRecords) and the base daily budget. -/
def summary (initialDailyBudget : ℚ) (rs : List DailyRecord) :
    MonthlySummary :=
  let totalSpent :=
    rs.foldl (fun acc r => acc + r.expenses.foldl (fun s e => s + e.amount) 0) 0
  let lockedDays := rs.filter (fun r => r.isLocked)
  let daysInMonth := rs.length
  let totalBudget := initialDailyBudget * daysInMonth
  let remainingBudget := totalBudget - totalSpent
  let remainingDaysCount := daysInMonth - lockedDays.length
  { totalBudget := totalBudget
    totalSpent := totalSpent
    totalBalance := totalBudget - totalSpent
    projectedSpending :=
      if 0 < lockedDays.length then
        (totalSpent / (lockedDays.length : ℚ)) * (daysInMonth : ℚ)
      else 0
    isOverBudget := decide (totalBudget < totalSpent)
    currentDailyAllowance :=
      if 0 < remainingDaysCount then
        remainingBudget / (remainingDaysCount : ℚ)
      else 0 }

/-- Sum of spent over the locked records among the first i records: the
accumulatedSpent the pass has built up when it reaches position i. -/
def lockedSpentBefore (records : List DailyRecord) (i : ℕ) : ℚ :=
  (((records.take i).filter (fun r => r.isLocked)).map spentOf).sum

/-- Number of locked records among the first i records: the
processedDaysCount the pass has built up when it reaches position i. -/
def lockedCountBefore (records : List DailyRecord) (i : ℕ) : ℕ :=
  ((records.take i).filter (fun r => r.isLocked)).length

/-- Scenario ledger: Day1 locked with a single expense of 60, Day2 and Day3
unlocked and empty (spec Scenario B with baseDailyTarget 30). -/
def scenarioB : List DailyRecord :=
  [⟨1, [⟨"e1", 60, "gasto"⟩], 0, true, 30⟩,
   ⟨2, [], 0, false, 30⟩,
   ⟨3, [], 0, false, 30⟩]

/-- Scenario ledger for RSR: Day1 spent 60, Day2 and Day3 spent 0
(spec Scenario A with dailyTarget 30). -/
def scenarioA : List DayData :=
  [⟨1, [⟨"a1", 60, "gasolina"⟩]⟩, ⟨2, []⟩, ⟨3, []⟩]

/-- The allowance the pass computes from a given accumulatedSpent and
processedDaysCount: the if-expression of the currentTarget line. -/
def passTarget (totalMonthlyBudget : ℚ) (n : ℕ) (acc : ℚ) (proc : ℕ) : ℚ :=
  if 0 < n - proc then (totalMonthlyBudget - acc) / ((n - proc : ℕ) : ℚ)
  else 0

/-- The totalExcess fold of the stats computation, named so that theorems can
speak about it: the foldl of the per-day excess pairs. -/
def totalExcessOf (dailyTarget : ℚ) (days : List DayData) : ℚ :=
  (days.map (fun d => (d.day, max 0 (spentOfDay d - dailyTarget)))).foldl
    (fun sum d => sum + d.2) 0

/-- Number of records whose isLocked flag is false. -/
def unlockedCount (rs : List DailyRecord) : ℕ :=
  (rs.filter (fun r => !r.isLocked)).length

/-- The SCR locking policy: a day is locked exactly when it holds at least
one expense. -/
def lockedInvariant (records : List DailyRecord) : Prop :=
  ∀ r ∈ records, r.isLocked = decide (0 < r.expenses.length)

/-- A one-day ledger with a locked day holding one expense, used to
instantiate universally quantified theorems. -/
def sampleRecords : List DailyRecord :=
  [⟨1, [⟨"e1", 5, "x"⟩], 0, true, 30⟩]

theorem lockedSpentBefore_zero (rs : List DailyRecord) :
    lockedSpentBefore rs 0 = 0 := by
  simp [lockedSpentBefore]

theorem lockedCountBefore_zero (rs : List DailyRecord) :
    lockedCountBefore rs 0 = 0 := by
  simp [lockedCountBefore]

theorem lockedSpentBefore_cons_succ (r : DailyRecord) (rs : List DailyRecord)
    (i : ℕ) :
    lockedSpentBefore (r :: rs) (i + 1) =
      (if r.isLocked then spentOf r else 0) + lockedSpentBefore rs i := by
  by_cases hl : r.isLocked <;>
    simp [lockedSpentBefore, List.take_succ_cons, List.filter_cons, hl]

theorem lockedCountBefore_cons_succ (r : DailyRecord) (rs : List DailyRecord)
    (i : ℕ) :
    lockedCountBefore (r :: rs) (i + 1) =
      (if r.isLocked then 1 else 0) + lockedCountBefore rs i := by
  by_cases hl : r.isLocked <;>
    simp [lockedCountBefore, List.take_succ_cons, List.filter_cons, hl,
      Nat.add_comm]

theorem rebalanceAux_length (B : ℚ) (n : ℕ) (rs : List DailyRecord) :
    ∀ (acc : ℚ) (proc : ℕ),
      (rebalanceAux B n acc proc rs).length = rs.length := by
  induction rs with
  | nil => intro acc proc; simp [rebalanceAux]
  | cons r rs ih =>
    intro acc proc
    by_cases hl : r.isLocked <;> simp [rebalanceAux, hl, ih]

theorem rebalanceAux_getD (B : ℚ) (n : ℕ) (rs : List DailyRecord) :
    ∀ (acc : ℚ) (proc i : ℕ), i < rs.length →
      (rebalanceAux B n acc proc rs).getD i default =
        { rs.getD i default with
          adjustedBudget :=
            passTarget B n (acc + lockedSpentBefore rs i)
              (proc + lockedCountBefore rs i) } := by
  induction rs with
  | nil => intro acc proc i h; simp at h
  | cons r rs ih =>
    intro acc proc i h
    cases i with
    | zero =>
      simp [rebalanceAux, lockedSpentBefore_zero, lockedCountBefore_zero,
        passTarget]
    | succ i =>
      have h' : i < rs.length := by simpa using h
      rw [lockedSpentBefore_cons_succ, lockedCountBefore_cons_succ]
      simp only [rebalanceAux, List.getD_cons_succ]
      cases hl : r.isLocked
      · rw [if_neg (by simp), if_neg (by simp), if_neg (by simp)]
        rw [ih acc proc i h']
        simp
      · rw [if_pos rfl, if_pos rfl, if_pos rfl]
        rw [ih (acc + spentOf r) (proc + 1) i h']
        have hq : acc + spentOf r + lockedSpentBefore rs i
            = acc + (spentOf r + lockedSpentBefore rs i) := by ring
        have hn : proc + 1 + lockedCountBefore rs i
            = proc + (1 + lockedCountBefore rs i) := by omega
        rw [hq, hn]

theorem rebalancedRecords_length (b : ℚ) (records : List DailyRecord) :
    (rebalancedRecords b records).length = records.length := by
  by_cases h : records.length = 0
  · simp [rebalancedRecords, h]
  · simp [rebalancedRecords, h, rebalanceAux_length]

theorem rebalancedRecords_getD (b : ℚ) (records : List DailyRecord) (i : ℕ)
    (hi : i < records.length) :
    (rebalancedRecords b records).getD i default =
      { records.getD i default with
        adjustedBudget :=
          passTarget (b * records.length) records.length
            (lockedSpentBefore records i) (lockedCountBefore records i) } := by
  have hne : ¬ records.length = 0 := by omega
  unfold rebalancedRecords
  rw [if_neg hne, rebalanceAux_getD _ _ _ _ _ _ hi]
  simp

theorem getD_map_of_lt {α β : Type} (f : α → β) (l : List α) (i : ℕ)
    (dm : β) (dl : α) (h : i < l.length) :
    (l.map f).getD i dm = f (l.getD i dl) := by
  induction l generalizing i with
  | nil => simp at h
  | cons x l ih =>
    cases i with
    | zero => simp
    | succ i => simpa using ih i (by simpa using h)

theorem stats_eq (daysInMonth : ℕ) (dailyTarget : ℚ) (days : List DayData) :
    stats daysInMonth dailyTarget days = days.map (fun d =>
      ({ day := d.day
         assigned := dailyTarget - rsrPenalty daysInMonth
           (totalExcessOf dailyTarget days) (max 0 (spentOfDay d - dailyTarget))
         spent := spentOfDay d
         remaining := dailyTarget - rsrPenalty daysInMonth
           (totalExcessOf dailyTarget days) (max 0 (spentOfDay d - dailyTarget))
           - spentOfDay d } : StatRow)) := rfl

theorem foldl_add_snd (l : List (ℕ × ℚ)) (c : ℚ) :
    l.foldl (fun sum d => sum + d.2) c = c + (l.map Prod.snd).sum := by
  induction l generalizing c with
  | nil => simp
  | cons x l ih => simp [ih]; ring

theorem foldl_add_amount (l : List ExpenseItem) (c : ℚ) :
    l.foldl (fun s e => s + e.amount) c
      = c + (l.map (fun e => e.amount)).sum := by
  induction l generalizing c with
  | nil => simp
  | cons x l ih => simp [ih]; ring

theorem foldl_add_spent (rs : List DailyRecord) (c : ℚ) :
    rs.foldl
        (fun acc r => acc + r.expenses.foldl (fun s e => s + e.amount) 0) c
      = c + (rs.map (fun r => (r.expenses.map (fun e => e.amount)).sum)).sum := by
  induction rs generalizing c with
  | nil => simp
  | cons r rs ih =>
    simp only [List.foldl_cons, List.map_cons, List.sum_cons]
    rw [ih, foldl_add_amount]
    ring

theorem length_filter_not (rs : List DailyRecord) :
    rs.length - (rs.filter (fun r => r.isLocked)).length = unlockedCount rs := by
  induction rs with
  | nil => simp [unlockedCount]
  | cons r rs ih =>
    have hle := List.length_filter_le (fun r => r.isLocked) rs
    cases hl : r.isLocked <;>
      simp [unlockedCount, List.filter_cons, hl] at ih ⊢ <;> omega

/-- C1: in the SCR pass, at every position i where remainingDays is positive,
accumulatedSpent (the spent sum over locked days already processed) plus
remainingDays times the allowance computed for the current day equals
totalBudget = baseDailyTarget * daysInPeriod, exactly. -/
theorem scr_conservation_invariant (b : ℚ) (records : List DailyRecord)
    (i : ℕ) (hi : i < records.length)
    (hrd : 0 < records.length - lockedCountBefore records i) :
    lockedSpentBefore records i +
      ((records.length - lockedCountBefore records i : ℕ) : ℚ) *
        ((rebalancedRecords b records).getD i default).adjustedBudget
      = b * records.length := by
  rw [rebalancedRecords_getD b records i hi]
  show lockedSpentBefore records i +
      ((records.length - lockedCountBefore records i : ℕ) : ℚ) *
        passTarget (b * records.length) records.length
          (lockedSpentBefore records i) (lockedCountBefore records i)
      = b * records.length
  rw [passTarget, if_pos hrd]
  have hne : ((records.length - lockedCountBefore records i : ℕ) : ℚ) ≠ 0 := by
    exact_mod_cast Nat.pos_iff_ne_zero.mp hrd
  rw [mul_comm, div_mul_cancel₀ _ hne]
  ring

/-- C1 witness: the invariant holds at position 1 of the Scenario B ledger,
where one locked day of 60 has been consumed out of a 90 budget. -/
theorem scr_conservation_invariant_witness :
    lockedSpentBefore scenarioB 1 +
      ((scenarioB.length - lockedCountBefore scenarioB 1 : ℕ) : ℚ) *
        ((rebalancedRecords 30 scenarioB).getD 1 default).adjustedBudget
      = 30 * scenarioB.length :=
  scr_conservation_invariant 30 scenarioB 1 (by decide) (by decide)

/-- C2: on the Scenario B ledger (3 days, base target 30, Day1 locked with a
60 expense, Day2 and Day3 unlocked and empty), the SCR pass assigns allowance
30 to Day1 and 15 to Day2 and Day3. -/
theorem scr_scenario_b :
    (rebalancedRecords 30 scenarioB).map (fun r => (r.day, r.adjustedBudget))
      = [(1, 30), (2, 15), (3, 15)] := by
  simp [rebalancedRecords, rebalanceAux, scenarioB, spentOf]
  norm_num

/-- C10: the SCR pass returns a list of the same length whose entries agree
with the input on day, expenses, isLocked and date; only adjustedBudget is
recomputed.  The pass is a pure function of the record list, so the input
itself is never mutated. -/
theorem scr_frame_preservation (b : ℚ) (records : List DailyRecord) :
    (rebalancedRecords b records).length = records.length ∧
    ∀ i, i < records.length →
      ((rebalancedRecords b records).getD i default).day
          = (records.getD i default).day ∧
      ((rebalancedRecords b records).getD i default).expenses
          = (records.getD i default).expenses ∧
      ((rebalancedRecords b records).getD i default).isLocked
          = (records.getD i default).isLocked ∧
      ((rebalancedRecords b records).getD i default).date
          = (records.getD i default).date := by
  refine ⟨rebalancedRecords_length b records, ?_⟩
  intro i hi
  rw [rebalancedRecords_getD b records i hi]
  exact ⟨rfl, rfl, rfl, rfl⟩

/-- C10 witness: field preservation at position 0 of the Scenario B ledger. -/
theorem scr_frame_preservation_witness :
    ((rebalancedRecords 30 scenarioB).getD 0 default).expenses
      = (scenarioB.getD 0 default).expenses :=
  ((scr_frame_preservation 30 scenarioB).2 0 (by decide)).2.1

/-- C3: on the Scenario A ledger (3 days, target 30, Day1 spent 60, Day2 and
Day3 spent 0), RSR assigns 30 to Day1 and 15 to Day2 and Day3; the penalty is
0 for Day1 (othersExcess 0) and 15 for the others (othersExcess 30 split over
the 2 remaining days). -/
theorem rsr_scenario_a :
    (stats 3 30 scenarioA).map (fun s => (s.day, s.assigned))
        = [(1, 30), (2, 15), (3, 15)] ∧
    rsrPenalty 3 30 30 = 0 ∧ rsrPenalty 3 30 0 = 15 := by
  refine ⟨?_, ?_, ?_⟩ <;>
    simp [stats, scenarioA, spentOfDay, rsrPenalty, rsrDenom, jsOrInt] <;>
    norm_num

/-- C7: on a ledger whose days all have empty expense lists and with a
positive base target, RSR assigns exactly the base daily target to every day
(no penalty anywhere). -/
theorem rsr_neutrality (daysInMonth : ℕ) (dailyTarget : ℚ)
    (days : List DayData) (htarget : 0 < dailyTarget)
    (hempty : ∀ d ∈ days, d.expenses = []) :
    ∀ i, i < days.length →
      ((stats daysInMonth dailyTarget days).getD i default).assigned
        = dailyTarget := by
  have hspent : ∀ d ∈ days, spentOfDay d = 0 := by
    intro d hd
    have he : d.expenses = [] := hempty d hd
    simp [spentOfDay, he]
  have hex : ∀ d ∈ days, max 0 (spentOfDay d - dailyTarget) = 0 := by
    intro d hd
    rw [hspent d hd]
    exact max_eq_left (by linarith)
  have htot : totalExcessOf dailyTarget days = 0 := by
    rw [totalExcessOf, foldl_add_snd]
    rw [zero_add, List.map_map]
    apply List.sum_eq_zero
    intro x hx
    simp only [List.mem_map, Function.comp] at hx
    obtain ⟨d, hd, rfl⟩ := hx
    exact hex d hd
  intro i hi
  rw [stats_eq, getD_map_of_lt _ _ _ default default hi]
  have hd : days.getD i default ∈ days := by
    rw [List.getD_eq_getElem days default hi]
    exact List.getElem_mem hi
  rw [htot, hex _ hd]
  simp [rsrPenalty]

/-- C7 witness: a one-day empty ledger with target 30 gets allowance 30. -/
theorem rsr_neutrality_witness :
    ((stats 3 30 [⟨1, []⟩]).getD 0 default).assigned = 30 :=
  rsr_neutrality 3 30 [⟨1, []⟩] (by norm_num) (by simp) 0 (by simp)

/-- C8: with daysInPeriod = 1 the RSR denominator guard turns
(daysInMonth - 1) into 1, so no division by zero occurs, the single day's
penalty (totalExcess equals its own excess) is 0, and its allowance is the
base daily target whatever it spent. -/
theorem rsr_single_day_guard (dailyTarget : ℚ) (d : DayData) :
    rsrDenom 1 ≠ 0 ∧ (∀ x : ℚ, rsrPenalty 1 x x = 0) ∧
    ∀ i, i < 1 →
      ((stats 1 dailyTarget [d]).getD i default).assigned = dailyTarget := by
  refine ⟨by simp [rsrDenom, jsOrInt], fun x => by simp [rsrPenalty], ?_⟩
  intro i hi
  have hzero : i = 0 := by omega
  subst hzero
  rw [stats_eq, getD_map_of_lt _ _ _ default default (by simp)]
  simp [totalExcessOf, rsrPenalty]

/-- C8 witness: a single day that spent 100 against target 30 still gets
allowance 30. -/
theorem rsr_single_day_guard_witness :
    ((stats 1 30 [⟨1, [⟨"g1", 100, "gas"⟩]⟩]).getD 0 default).assigned = 30 :=
  (rsr_single_day_guard 30 ⟨1, [⟨"g1", 100, "gas"⟩]⟩).2.2 0 (by norm_num)

/-- C4 counterexample: a negative parsed amount is not rejected; addExpense
on a one-day ledger with amount -5 changes the ledger. -/
theorem addExpense_accepts_negative :
    addExpense [⟨1, []⟩] 1 (some "gasolina") (some (-5)) "id1"
      ≠ [⟨1, []⟩] := by
  simp [addExpense]

/-- C4 amended: addExpense rejects only a missing description or a missing or
NaN amount, returning the ledger unchanged; every parsed amount, negative
included, is appended to the matching day.  The RSR day records carry no
locked flag; the SCR variant's addNewExpenseField appends the expense and
sets isLocked to true for the matching day, with no amount validation. -/
theorem addExpense_amended :
    (∀ (days : List DayData) (dayNum : ℕ) (desc : Option String)
        (nid : String), addExpense days dayNum desc none nid = days) ∧
    (∀ (days : List DayData) (dayNum : ℕ) (amt : Option ℚ) (nid : String),
        addExpense days dayNum none amt nid = days) ∧
    (∀ (days : List DayData) (dayNum : ℕ) (d : String) (a : ℚ)
        (nid : String) (i : ℕ), i < days.length →
      (((days.getD i default).day = dayNum →
        (addExpense days dayNum (some d) (some a) nid).getD i default
          = { days.getD i default with
              expenses := (days.getD i default).expenses ++ [⟨nid, a, d⟩] }) ∧
       ((days.getD i default).day ≠ dayNum →
        (addExpense days dayNum (some d) (some a) nid).getD i default
          = days.getD i default))) ∧
    (∀ (records : List DailyRecord) (day : ℕ) (a : ℚ) (lab nid : String)
        (i : ℕ), i < records.length →
      (((records.getD i default).day = day →
        (addNewExpenseField records day a lab nid).getD i default
          = { records.getD i default with
              expenses := (records.getD i default).expenses ++ [⟨nid, a, lab⟩]
              isLocked := true }) ∧
       ((records.getD i default).day ≠ day →
        (addNewExpenseField records day a lab nid).getD i default
          = records.getD i default))) := by
  refine ⟨?_, ?_, ?_, ?_⟩
  · intro days dayNum desc nid
    cases desc <;> rfl
  · intro days dayNum amt nid
    rfl
  · intro days dayNum d a nid i hi
    unfold addExpense
    rw [getD_map_of_lt _ _ _ default default hi]
    constructor
    · intro hd; rw [if_pos hd]
    · intro hd; rw [if_neg hd]
  · intro records day a lab nid i hi
    unfold addNewExpenseField
    rw [getD_map_of_lt _ _ _ default default hi]
    constructor
    · intro hd; rw [if_pos hd]
    · intro hd; rw [if_neg hd]

/-- C4 amended witness: instantiation at a one-day ledger; the NaN rejection
and the append with locking at day 1. -/
theorem addExpense_amended_witness :
    addExpense [⟨1, []⟩] 1 (some "luz") none "n0" = [⟨1, []⟩] ∧
    (addNewExpenseField sampleRecords 1 7 "agua" "n1").getD 0 default
      = { sampleRecords.getD 0 default with
          expenses := (sampleRecords.getD 0 default).expenses
            ++ [⟨"n1", 7, "agua"⟩]
          isLocked := true } :=
  ⟨addExpense_amended.1 [⟨1, []⟩] 1 (some "luz") "n0",
   (addExpense_amended.2.2.2 sampleRecords 1 7 "agua" "n1" 0
      (by decide)).1 (by decide)⟩

/-- C5: addNewExpenseField and removeExpense preserve the invariant
locked == (expenses.length > 0) on every ledger satisfying it, and
handleExpenseChange preserves it whenever the edited expense id exists on
every record carrying the edited day number. -/
theorem mutations_preserve_locked_invariant (records : List DailyRecord)
    (day : ℕ) (eid : String) (a : ℚ) (lab nid : String) (f : EditField)
    (h : lockedInvariant records) :
    lockedInvariant (addNewExpenseField records day a lab nid) ∧
    lockedInvariant (removeExpense records day eid) ∧
    ((∀ r ∈ records, r.day = day → ∃ e ∈ r.expenses, e.id = eid) →
      lockedInvariant (handleExpenseChange records day eid f)) := by
  refine ⟨?_, ?_, ?_⟩
  · intro x hx
    unfold addNewExpenseField at hx
    simp only [List.mem_map] at hx
    obtain ⟨r, hr, rfl⟩ := hx
    by_cases hd : r.day = day
    · rw [if_pos hd]
      simp
    · rw [if_neg hd]
      exact h r hr
  · intro x hx
    unfold removeExpense at hx
    simp only [List.mem_map] at hx
    obtain ⟨r, hr, rfl⟩ := hx
    by_cases hd : r.day = day
    · rw [if_pos hd]
    · rw [if_neg hd]
      exact h r hr
  · intro hex x hx
    unfold handleExpenseChange at hx
    simp only [List.mem_map] at hx
    obtain ⟨r, hr, rfl⟩ := hx
    by_cases hd : r.day = day
    · rw [if_pos hd]
      obtain ⟨e, he, _⟩ := hex r hr hd
      have hpos : 0 < r.expenses.length :=
        List.length_pos.mpr (List.ne_nil_of_mem he)
      simp [hpos]
    · rw [if_neg hd]
      exact h r hr

/-- C5 witness: the invariant after each mutation on a concrete one-day
locked ledger. -/
theorem mutations_preserve_locked_invariant_witness :
    lockedInvariant (addNewExpenseField sampleRecords 1 5 "y" "n2") ∧
    lockedInvariant (removeExpense sampleRecords 1 "e1") ∧
    lockedInvariant
      (handleExpenseChange sampleRecords 1 "e1" (.labelEdit "z")) := by
  have t := mutations_preserve_locked_invariant sampleRecords 1 "e1" 5 "y"
    "n2" (.labelEdit "z") (by simp [lockedInvariant, sampleRecords])
  exact ⟨t.1, t.2.1, t.2.2 (by decide)⟩

/-- C6: removeExpense keeps the list length, filters exactly the expense with
the given id out of every record with the given day, sets that record's
locked flag to (remaining expenses.length > 0) and leaves other records
untouched; removing Day1's only expense from the Scenario B ledger and
rerunning the SCR pass yields allowance 30 for all three days. -/
theorem removeExpense_spec_and_restores_pool :
    (∀ (records : List DailyRecord) (day : ℕ) (eid : String) (i : ℕ),
      i < records.length →
        ((removeExpense records day eid).length = records.length ∧
         ((records.getD i default).day = day →
            ((removeExpense records day eid).getD i default).expenses
              = (records.getD i default).expenses.filter
                  (fun e => e.id != eid) ∧
            ((removeExpense records day eid).getD i default).isLocked
              = decide (0 < ((records.getD i default).expenses.filter
                  (fun e => e.id != eid)).length)) ∧
         ((records.getD i default).day ≠ day →
            (removeExpense records day eid).getD i default
              = records.getD i default))) ∧
    (rebalancedRecords 30 (removeExpense scenarioB 1 "e1")).map
        (fun r => (r.day, r.adjustedBudget)) = [(1, 30), (2, 30), (3, 30)] := by
  constructor
  · intro records day eid i hi
    refine ⟨by simp [removeExpense], ?_, ?_⟩
    · intro hd
      unfold removeExpense
      rw [getD_map_of_lt _ _ _ default default hi, if_pos hd]
      exact ⟨rfl, rfl⟩
    · intro hd
      unfold removeExpense
      rw [getD_map_of_lt _ _ _ default default hi, if_neg hd]
  · simp [rebalancedRecords, rebalanceAux, removeExpense, scenarioB, spentOf]

/-- C6 witness: removal at day 1 of the Scenario B ledger empties the day and
unlocks it. -/
theorem removeExpense_spec_witness :
    ((removeExpense scenarioB 1 "e1").getD 0 default).expenses
        = (scenarioB.getD 0 default).expenses.filter (fun e => e.id != "e1") ∧
    ((removeExpense scenarioB 1 "e1").getD 0 default).isLocked
        = decide (0 < ((scenarioB.getD 0 default).expenses.filter
            (fun e => e.id != "e1")).length) :=
  ((removeExpense_spec_and_restores_pool.1 scenarioB 1 "e1" 0
      (by decide)).2.1 (by decide))

/-- C9: summary returns totalSpent equal to the sum of all expense amounts,
totalBalance = totalBudget - totalSpent, isOverBudget iff
totalSpent > totalBudget, and currentDailyAllowance computed from the
locked-day count as (totalBudget - totalSpent) / unlockedCount, with 0 when
every day is locked. -/
theorem summary_spec (b : ℚ) (rs : List DailyRecord) :
    (summary b rs).totalSpent
        = (rs.map (fun r => (r.expenses.map (fun e => e.amount)).sum)).sum ∧
    (summary b rs).totalBalance
        = b * rs.length - (summary b rs).totalSpent ∧
    ((summary b rs).isOverBudget = true ↔
        b * rs.length < (summary b rs).totalSpent) ∧
    (0 < unlockedCount rs →
        (summary b rs).currentDailyAllowance
          = (b * rs.length - (summary b rs).totalSpent)
              / (unlockedCount rs : ℚ)) ∧
    (unlockedCount rs = 0 → (summary b rs).currentDailyAllowance = 0) := by
  have hspent : (summary b rs).totalSpent
      = (rs.map (fun r => (r.expenses.map (fun e => e.amount)).sum)).sum := by
    show rs.foldl
        (fun acc r => acc + r.expenses.foldl (fun s e => s + e.amount) 0) 0
      = _
    rw [foldl_add_spent, zero_add]
  have hrem : rs.length - (rs.filter (fun r => r.isLocked)).length
      = unlockedCount rs := length_filter_not rs
  refine ⟨hspent, rfl, ?_, ?_, ?_⟩
  · show decide (b * rs.length < _) = true ↔ _
    rw [decide_eq_true_iff]
    exact Iff.rfl
  · intro hu
    show (if 0 < rs.length - (rs.filter (fun r => r.isLocked)).length
        then _ else 0) = _
    rw [hrem, if_pos hu]
    rfl
  · intro hu
    show (if 0 < rs.length - (rs.filter (fun r => r.isLocked)).length
        then _ else 0) = 0
    rw [hrem, hu]
    simp

/-- C9 witness: the allowance formula on the Scenario B ledger (2 unlocked
days) and the all-locked zero case on a one-day locked ledger. -/
theorem summary_spec_witness :
    (summary 30 scenarioB).currentDailyAllowance
        = (30 * scenarioB.length - (summary 30 scenarioB).totalSpent)
            / (unlockedCount scenarioB : ℚ) ∧
    (summary 30 sampleRecords).currentDailyAllowance = 0 :=
  ⟨(summary_spec 30 scenarioB).2.2.2.1 (by decide),
   (summary_spec 30 sampleRecords).2.2.2.2 (by decide)⟩
